import Mathlib

/-!
Verification development for the Job-Skill-Builder repository: a shallow
embedding of the client-side application tracker (public/tracker.js with the
queueing code in public/app.js), the field-mapping helpers and REST handlers
of the several server variants (server.js and the unnamed Supabase server
file), together with proofs of the specification claims about them.

JavaScript conventions used throughout the embedding:
* a string-valued field that may be absent, null or empty is modelled as a
  `String`, with `""` standing for every falsy value, and the JS `a || b`
  idiom becomes `jsOr`;
* general JS values (which may be `undefined` or `null`) are modelled by the
  inductive type `JVal`;
* an array-valued field that may be absent is modelled as a `List`, with `[]`
  standing for a missing or empty array.
-/

namespace JSB

/-- JS `a || b` restricted to strings: `""` is the only falsy string. -/
def jsOr (a b : String) : String := if a = "" then b else a

/-- A JavaScript value as stored in a record field: `undefined`, `null`, or a
boolean / number / string payload. -/
inductive JVal where
  | undef
  | null
  | bool (b : Bool)
  | num (n : Int)
  | str (s : String)
deriving DecidableEq, Repr

/-- JS truthiness of a `JVal`. -/
def jvTruthy : JVal → Bool
  | .undef => false
  | .null => false
  | .bool b => b
  | .num n => n != 0
  | .str s => s != ""

/-- JS `a || b` on general values. -/
def jvOr (a b : JVal) : JVal := if jvTruthy a then a else b

/-- JS loose equality with `null` (`x == null`), true exactly on `undefined`
and `null`. -/
def looseEqNull : JVal → Bool
  | .undef => true
  | .null => true
  | _ => false

/-- `getField` as defined in the first Supabase server variant
(`src/unnamed/part_000`, first copy): walk the names, return `obj[n]` for the
first `n` with `obj && obj[n] !== undefined && obj[n] !== null`, else `null`.
A falsy `obj` is modelled as `none`. -/
def getFieldA : Option (String → JVal) → List String → JVal
  | _, [] => .null
  | none, _ :: rest => getFieldA none rest
  | some o, n :: rest =>
      if o n ≠ JVal.undef ∧ o n ≠ JVal.null then o n else getFieldA (some o) rest

/-- `getField` as defined in the second Supabase server variant
(`src/unnamed/part_000`, second copy): the guard is `obj && obj[n] != null`. -/
def getFieldB : Option (String → JVal) → List String → JVal
  | _, [] => .null
  | none, _ :: rest => getFieldB none rest
  | some o, n :: rest =>
      if looseEqNull (o n) = false then o n else getFieldB (some o) rest

/-- The specification's description of `getField`: the value of the first
listed property that is neither `undefined` nor `null`, and `null` when no
listed property has such a value. -/
def getFieldSpec (o : String → JVal) (names : List String) : JVal :=
  match names.find? (fun n => !looseEqNull (o n)) with
  | some n => o n
  | none => .null

/-! ## Client-side application tracker (public/tracker.js, public/app.js) -/

/-- One record of an entry's stage-history log (`{ status, timestamp }`). -/
structure StageRecord where
  status : String
  timestamp : String
deriving DecidableEq, Repr

/-- A normalized tracked entry, exactly the thirteen fields constructed by
`normalizeEntry` in tracker.js. -/
structure Entry where
  id : String
  title : String
  company : String
  location : String
  link : String
  salary : String
  type : String
  description : String
  status : String
  loggedAt : String
  nextStepDate : String
  notes : String
  stageHistory : List StageRecord
deriving DecidableEq, Repr

/-- A raw item as read back from local storage (or queued by app.js) before
normalization; `""` models an absent, null or empty string field and `[]` a
missing or empty `stageHistory` array.  `queuedAt` is the extra field that
app.js's `queueJobForTracker` adds to pending jobs. -/
structure RawItem where
  id : String := ""
  title : String := ""
  company : String := ""
  location : String := ""
  link : String := ""
  salary : String := ""
  type : String := ""
  description : String := ""
  status : String := ""
  loggedAt : String := ""
  queuedAt : String := ""
  nextStepDate : String := ""
  notes : String := ""
  stageHistory : List StageRecord := []
deriving DecidableEq, Repr

/-- `normalizeEntry` from tracker.js.  `genId` is the value `generateId()`
would return and `now` the value of `new Date().toISOString()`; both are
consumed only when the corresponding raw field is falsy. -/
def normalizeEntry (genId now : String) (item : RawItem) : Entry :=
  let loggedAt := jsOr item.loggedAt (jsOr item.queuedAt now)
  let status := jsOr item.status "applied"
  let stageHistory :=
    if item.stageHistory.isEmpty then [⟨status, loggedAt⟩] else item.stageHistory
  { id := jsOr item.id genId
    title := jsOr item.title "Untitled role"
    company := jsOr item.company "Unknown company"
    location := jsOr item.location ""
    link := jsOr item.link ""
    salary := jsOr item.salary ""
    type := jsOr item.type ""
    description := jsOr item.description ""
    status := status
    loggedAt := loggedAt
    nextStepDate := jsOr item.nextStepDate ""
    notes := jsOr item.notes ""
    stageHistory := stageHistory }

/-- Serializing a normalized entry back to storage: the stored JSON object has
exactly the entry's thirteen fields (`normalizeEntry` builds a fresh object
literal, so no extra key such as `queuedAt` survives). -/
def entryToRaw (e : Entry) : RawItem :=
  { id := e.id, title := e.title, company := e.company, location := e.location,
    link := e.link, salary := e.salary, type := e.type,
    description := e.description, status := e.status, loggedAt := e.loggedAt,
    queuedAt := "", nextStepDate := e.nextStepDate, notes := e.notes,
    stageHistory := e.stageHistory }

/-- `readJson(TRACKED_KEY).map(normalizeEntry)`: each element is normalized
with its own fresh id / timestamp draw, supplied by `fresh`. -/
def getTrackedJobsAux (fresh : Nat → String × String) (i : Nat) :
    List RawItem → List Entry
  | [] => []
  | r :: rest =>
      normalizeEntry (fresh i).1 (fresh i).2 r :: getTrackedJobsAux fresh (i + 1) rest

/-- `getTrackedJobs()` of tracker.js applied to a stored list. -/
def getTrackedJobs (fresh : Nat → String × String) (stored : List RawItem) :
    List Entry :=
  getTrackedJobsAux fresh 0 stored

/-- The `value`s of `STATUS_OPTIONS` in tracker.js. -/
def statusValues : List String := ["saved", "applied", "interview", "offer", "rejected"]

/-- `addJob(job, status)` from tracker.js: normalize the job with the given
status and a stage-history record appended, and `unshift` it onto the list. -/
def addJob (genId now : String) (job : RawItem) (status : String)
    (jobs : List Entry) : List Entry :=
  let entry := normalizeEntry genId now
    { job with status := status,
               stageHistory := job.stageHistory ++ [⟨status, now⟩] }
  entry :: jobs

/-- The `data-field` attributes reachable from the tracker's controls:
the status select, the next-step date input, and the notes textarea. -/
inductive EditField where
  | status
  | nextStepDate
  | notes
deriving DecidableEq, Repr

/-- The body of the `trackerList` input handler applied to one job:
`{ ...job, [field]: value }`, with the stage history additionally extended
when the edited field is `status`. -/
def applyEdit (now id : String) (field : EditField) (value : String)
    (job : Entry) : Entry :=
  if job.id ≠ id then job
  else
    match field with
    | .status =>
        { job with status := value,
                   stageHistory := job.stageHistory ++ [⟨value, now⟩] }
    | .nextStepDate => { job with nextStepDate := value }
    | .notes => { job with notes := value }

/-- The `jobs.map(...)` of the `trackerList` input handler. -/
def editJobs (now id : String) (field : EditField) (value : String)
    (jobs : List Entry) : List Entry :=
  jobs.map (applyEdit now id field value)

/-- The `trackerList` click handler's delete action:
`getTrackedJobs().filter((job) => job.id !== id)`. -/
def deleteJob (id : String) (jobs : List Entry) : List Entry :=
  jobs.filter (fun job => job.id ≠ id)

/-- The payload built by the tracker form's submit handler (title, company,
location, link, status, next step, notes). -/
structure FormPayload where
  title : String
  company : String
  location : String
  link : String
  status : String
  nextStepDate : String
  notes : String
deriving DecidableEq, Repr

/-- The form payload as the raw object passed to `addJob`. -/
def formRaw (p : FormPayload) : RawItem :=
  { title := p.title, company := p.company, location := p.location,
    link := p.link, status := p.status, nextStepDate := p.nextStepDate,
    notes := p.notes }

/-- One user-interface event of the application tracker, as a relation between
the stored `appliedJobsLog` list before and after the event.  The events are:

* `logApp` — app.js's `logApplication`, which pushes `{ ...job, loggedAt }`
  onto the stored log; the queued job objects are built from job-card data and
  carry no `status` and no `stageHistory` key;
* `formAdd` — the tracker form's submit handler (it only saves when the title
  is nonempty; the status comes from the form's status select).  Modelled from
  the spec: the tracker page's HTML is not part of the sources, and per the
  spec the selectable statuses are saved / applied / interview / offer /
  rejected, so the submitted status is required to lie in `statusValues`;
* `convert` — the pending-queue "Log it" button, `addJob(job, "applied")`;
* `editEvent` — the `trackerList` input handler; when the edited field is the
  status select, the value is one of the `STATUS_OPTIONS` values the select
  was rendered with;
* `deleteEvent` — the `trackerList` click handler's delete action.

Each tracker.js event first reads the stored list through `getTrackedJobs`
(normalizing) and writes back the serialized result. -/
inductive TrackerStep : List RawItem → List RawItem → Prop where
  | logApp (t : String) (job : RawItem) (s : List RawItem)
      (hstat : job.status = "") (hhist : job.stageHistory = []) :
      TrackerStep s (s ++ [{ job with loggedAt := t }])
  | formAdd (fresh : Nat → String × String) (g t : String) (p : FormPayload)
      (s : List RawItem) (htitle : p.title ≠ "") (hstatus : p.status ∈ statusValues) :
      TrackerStep s
        ((addJob g t (formRaw p) p.status (getTrackedJobs fresh s)).map entryToRaw)
  | convert (fresh : Nat → String × String) (g t : String) (job : RawItem)
      (s : List RawItem) :
      TrackerStep s
        ((addJob g t job "applied" (getTrackedJobs fresh s)).map entryToRaw)
  | editEvent (fresh : Nat → String × String) (t id : String) (f : EditField)
      (v : String) (s : List RawItem)
      (hv : f = EditField.status → v ∈ statusValues) :
      TrackerStep s
        ((editJobs t id f v (getTrackedJobs fresh s)).map entryToRaw)
  | deleteEvent (fresh : Nat → String × String) (id : String) (s : List RawItem) :
      TrackerStep s ((deleteJob id (getTrackedJobs fresh s)).map entryToRaw)

/-- Stored tracker states reachable from empty local storage
(`localStorage.getItem` of a missing key parses to `[]`). -/
inductive TrackerReachable : List RawItem → Prop where
  | init : TrackerReachable []
  | step {s s' : List RawItem} :
      TrackerReachable s → TrackerStep s s' → TrackerReachable s'

/-- Invariant of a normalized tracked entry: its status is one of the five
tracker statuses, its stage history is nonempty, and the last history record
carries the entry's current status. -/
def EntryInv (e : Entry) : Prop :=
  e.status ∈ statusValues ∧ e.stageHistory ≠ [] ∧
    (e.stageHistory.map StageRecord.status).getLast? = some e.status

/-- Invariant of a stored raw item: either it is an un-normalized app.js log
entry (no status, no history), or it is a serialized normalized entry whose
last history record carries its status. -/
def RawInv (r : RawItem) : Prop :=
  (r.status = "" ∧ r.stageHistory = []) ∨
    (r.status ∈ statusValues ∧ r.stageHistory ≠ [] ∧
      (r.stageHistory.map StageRecord.status).getLast? = some r.status)

theorem statusValues_ne_empty {x : String} (hx : x ∈ statusValues) : x ≠ "" := by
  fin_cases hx <;> decide

theorem jsOr_of_ne {a : String} (b : String) (ha : a ≠ "") : jsOr a b = a := by
  simp [jsOr, ha]

theorem entryInv_normalize {r : RawItem} (g t : String) (hr : RawInv r) :
    EntryInv (normalizeEntry g t r) := by
  rcases hr with ⟨hs, hh⟩ | ⟨hs, hh, hl⟩
  · refine ⟨?_, ?_, ?_⟩ <;> simp [normalizeEntry, hs, hh, jsOr, statusValues]
  · have hs' : r.status ≠ "" := statusValues_ne_empty hs
    have hne : r.stageHistory.isEmpty = false := by
      simpa [List.isEmpty_iff] using hh
    refine ⟨?_, ?_, ?_⟩ <;>
      simp [normalizeEntry, hne, jsOr_of_ne _ hs', hs, hh, hl]

theorem rawInv_entryToRaw {e : Entry} (he : EntryInv e) : RawInv (entryToRaw e) := by
  rcases he with ⟨hs, hh, hl⟩
  exact Or.inr ⟨hs, by simpa [entryToRaw] using hh, by simpa [entryToRaw] using hl⟩

theorem entryInv_getTrackedAux {s : List RawItem} (hs : ∀ r ∈ s, RawInv r)
    (fresh : Nat → String × String) (i : Nat) :
    ∀ e ∈ getTrackedJobsAux fresh i s, EntryInv e := by
  induction s generalizing i with
  | nil => simp [getTrackedJobsAux]
  | cons r rest ih =>
      intro e he
      simp only [getTrackedJobsAux, List.mem_cons] at he
      rcases he with rfl | he
      · exact entryInv_normalize _ _ (hs r (by simp))
      · exact ih (fun x hx => hs x (by simp [hx])) _ e he

theorem entryInv_getTracked {s : List RawItem} (hs : ∀ r ∈ s, RawInv r)
    (fresh : Nat → String × String) :
    ∀ e ∈ getTrackedJobs fresh s, EntryInv e :=
  entryInv_getTrackedAux hs fresh 0

theorem entryInv_addJob {g t : String} {job : RawItem} {status : String}
    (hstatus : status ∈ statusValues) {jobs : List Entry}
    (hjobs : ∀ e ∈ jobs, EntryInv e) :
    ∀ e ∈ addJob g t job status jobs, EntryInv e := by
  intro e he
  simp only [addJob, List.mem_cons] at he
  rcases he with rfl | he
  · have hs' : status ≠ "" := statusValues_ne_empty hstatus
    refine ⟨?_, ?_, ?_⟩ <;>
      simp [normalizeEntry, jsOr_of_ne _ hs', hstatus]
  · exact hjobs e he

theorem entryInv_applyEdit {now id : String} {f : EditField} {v : String}
    (hv : f = EditField.status → v ∈ statusValues) {e : Entry}
    (he : EntryInv e) : EntryInv (applyEdit now id f v e) := by
  rcases he with ⟨hs, hh, hl⟩
  by_cases hid : e.id ≠ id
  · simpa [applyEdit, hid] using ⟨hs, hh, hl⟩
  · cases f with
    | status =>
        have hv' := hv rfl
        refine ⟨?_, ?_, ?_⟩ <;> simp [applyEdit, hid, hv']
    | nextStepDate => refine ⟨?_, ?_, ?_⟩ <;> simp [applyEdit, hid, hs, hh, hl]
    | notes => refine ⟨?_, ?_, ?_⟩ <;> simp [applyEdit, hid, hs, hh, hl]

theorem rawInv_reachable {s : List RawItem} (h : TrackerReachable s) :
    ∀ r ∈ s, RawInv r := by
  induction h with
  | init => simp
  | step _ hstep ih =>
      rename_i s s'
      cases hstep with
      | logApp t job _ hstat hhist =>
          intro r hr
          rcases List.mem_append.mp hr with hr | hr
          · exact ih r hr
          · simp only [List.mem_singleton] at hr
            subst hr
            exact Or.inl ⟨hstat, hhist⟩
      | formAdd fresh g t p _ htitle hstatus =>
          intro r hr
          rcases List.mem_map.mp hr with ⟨e, he, rfl⟩
          exact rawInv_entryToRaw
            (entryInv_addJob hstatus (entryInv_getTracked ih fresh) e he)
      | convert fresh g t job _ =>
          intro r hr
          rcases List.mem_map.mp hr with ⟨e, he, rfl⟩
          exact rawInv_entryToRaw
            (entryInv_addJob (by simp [statusValues])
              (entryInv_getTracked ih fresh) e he)
      | editEvent fresh t id f v _ hv =>
          intro r hr
          rcases List.mem_map.mp hr with ⟨e, he, rfl⟩
          rcases List.mem_map.mp he with ⟨e₀, he₀, rfl⟩
          exact rawInv_entryToRaw
            (entryInv_applyEdit hv (entryInv_getTracked ih fresh e₀ he₀))
      | deleteEvent fresh id _ =>
          intro r hr
          rcases List.mem_map.mp hr with ⟨e, he, rfl⟩
          exact rawInv_entryToRaw
            (entryInv_getTracked ih fresh e (List.mem_of_mem_filter he))

/-- The forward order the claim ascribes to tracker statuses: position along
saved → applied → interview → offer/rejected. -/
def statusRank : String → Nat
  | "applied" => 1
  | "interview" => 2
  | "offer" => 3
  | "rejected" => 3
  | _ => 0

/-- The frame the edit claim describes for an edit of field `f` with value
`v`: every field other than `f` of the targeted entry is unchanged, the
edited field takes the new value, and exactly for status edits one record
with the new status is appended to the stage history. -/
def FrameOk (f : EditField) (v now : String) (old upd : Entry) : Prop :=
  upd.id = old.id ∧ upd.title = old.title ∧ upd.company = old.company ∧
  upd.location = old.location ∧ upd.link = old.link ∧ upd.salary = old.salary ∧
  upd.type = old.type ∧ upd.description = old.description ∧
  upd.loggedAt = old.loggedAt ∧
  (match f with
   | .status =>
       upd.status = v ∧ upd.nextStepDate = old.nextStepDate ∧
       upd.notes = old.notes ∧
       upd.stageHistory = old.stageHistory ++ [⟨v, now⟩]
   | .nextStepDate =>
       upd.nextStepDate = v ∧ upd.status = old.status ∧ upd.notes = old.notes ∧
       upd.stageHistory = old.stageHistory
   | .notes =>
       upd.notes = v ∧ upd.status = old.status ∧
       upd.nextStepDate = old.nextStepDate ∧
       upd.stageHistory = old.stageHistory)

/-- C1 (amended): starting from empty local storage, every reachable tracked
entry, as the tracker reads it, has a status drawn from the five
`STATUS_OPTIONS` values, a nonempty stage-history log whose last record holds
the entry's current status; and every status edit appends exactly one record
with the new status to the targeted entry's log. -/
theorem C1_tracker_status_and_log :
    (∀ s, TrackerReachable s → ∀ fresh : Nat → String × String,
        ∀ e ∈ getTrackedJobs fresh s,
          e.status ∈ statusValues ∧ e.stageHistory ≠ [] ∧
          (e.stageHistory.map StageRecord.status).getLast? = some e.status) ∧
    (∀ (now id v : String) (j : Entry), j.id = id →
        (applyEdit now id EditField.status v j).status = v ∧
        (applyEdit now id EditField.status v j).stageHistory
          = j.stageHistory ++ [⟨v, now⟩]) := by
  constructor
  · intro s hs fresh e he
    exact entryInv_getTracked (rawInv_reachable hs) fresh e he
  · intro now id v j hj
    constructor <;> simp [applyEdit, hj]

def cexFresh : Nat → String × String := fun _ => ("fid", "ft")

def cexPayload : FormPayload :=
  { title := "Backend Engineer", company := "Acme", location := "", link := "",
    status := "offer", nextStepDate := "", notes := "" }

/-- The stored log after submitting the tracker form with status "offer". -/
def cexS1 : List RawItem :=
  (addJob "id1" "t1" (formRaw cexPayload) "offer" (getTrackedJobs cexFresh [])).map
    entryToRaw

/-- The stored log after then editing that entry's status back to "saved". -/
def cexS2 : List RawItem :=
  (editJobs "t2" "id1" EditField.status "saved" (getTrackedJobs cexFresh cexS1)).map
    entryToRaw

def cexEntry : Entry :=
  { id := "id1", title := "Backend Engineer", company := "Acme", location := "",
    link := "", salary := "", type := "", description := "", status := "offer",
    loggedAt := "t1", nextStepDate := "", notes := "",
    stageHistory := [⟨"offer", "t1"⟩] }

def cexEntry2 : Entry :=
  { id := "id1", title := "Backend Engineer", company := "Acme", location := "",
    link := "", salary := "", type := "", description := "", status := "saved",
    loggedAt := "t1", nextStepDate := "", notes := "",
    stageHistory := [⟨"offer", "t1"⟩, ⟨"saved", "t2"⟩] }

theorem cexS1_reachable : TrackerReachable cexS1 :=
  TrackerReachable.step TrackerReachable.init
    (TrackerStep.formAdd cexFresh "id1" "t1" cexPayload [] (by decide) (by decide))

/-- Witness for C1's theorem at a concrete reachable state. -/
theorem C1_tracker_status_and_log_witness :
    TrackerReachable cexS1 ∧
    (∀ e ∈ getTrackedJobs cexFresh cexS1,
        e.status ∈ statusValues ∧ e.stageHistory ≠ [] ∧
        (e.stageHistory.map StageRecord.status).getLast? = some e.status) ∧
    cexEntry.id = "id1" ∧
    (applyEdit "t2" "id1" EditField.status "saved" cexEntry).status = "saved" ∧
    (applyEdit "t2" "id1" EditField.status "saved" cexEntry).stageHistory
      = cexEntry.stageHistory ++ [⟨"saved", "t2"⟩] :=
  ⟨cexS1_reachable,
   C1_tracker_status_and_log.1 cexS1 cexS1_reachable cexFresh,
   by decide,
   (C1_tracker_status_and_log.2 "t2" "id1" "saved" cexEntry (by decide)).1,
   (C1_tracker_status_and_log.2 "t2" "id1" "saved" cexEntry (by decide)).2⟩

/-- C1 counterexample: the claim that a job's status only ever transitions
forward along saved → applied → interview → offer/rejected is false.  From
empty storage the form can log a job at status "offer", and the status select
then accepts "saved", a backward transition along the claimed order. -/
theorem C1_counterexample :
    TrackerReachable cexS1 ∧ TrackerStep cexS1 cexS2 ∧
    getTrackedJobs cexFresh cexS1 = [cexEntry] ∧
    getTrackedJobs cexFresh cexS2 = [cexEntry2] ∧
    cexEntry2.id = cexEntry.id ∧ cexEntry.status = "offer" ∧
    cexEntry2.status = "saved" ∧
    statusRank cexEntry2.status < statusRank cexEntry.status :=
  ⟨cexS1_reachable,
   TrackerStep.editEvent cexFresh "t2" "id1" EditField.status "saved" cexS1
     (fun _ => by decide),
   by decide, by decide, by decide, by decide, by decide, by decide⟩

/-- C7: a tracker edit event maps the read list pointwise; every job whose id
differs from the target is unchanged; in the targeted job only the edited
field changes, except that a status edit additionally appends exactly one
record with the new status to the stage history; and the delete action keeps
exactly the jobs whose id differs from the target. -/
theorem C7_edit_and_delete_frame (now id : String) (f : EditField) (v : String)
    (jobs : List Entry) :
    editJobs now id f v jobs = jobs.map (applyEdit now id f v) ∧
    (∀ j ∈ jobs, j.id ≠ id → applyEdit now id f v j = j) ∧
    (∀ j ∈ jobs, j.id = id → FrameOk f v now j (applyEdit now id f v j)) ∧
    (∀ e, e ∈ deleteJob id jobs ↔ e ∈ jobs ∧ e.id ≠ id) := by
  refine ⟨rfl, ?_, ?_, ?_⟩
  · intro j _ hne
    simp [applyEdit, hne]
  · intro j _ hid
    cases f <;> simp [applyEdit, FrameOk, hid]
  · intro e
    simp [deleteJob, List.mem_filter]

/-- Witness for C7 at a concrete list and edit. -/
theorem C7_edit_and_delete_frame_witness :
    cexEntry.id = "id1" ∧
    FrameOk EditField.status "saved" "t2" cexEntry
      (applyEdit "t2" "id1" EditField.status "saved" cexEntry) ∧
    (cexEntry2 ∈ deleteJob "zzz" [cexEntry2] ↔
      cexEntry2 ∈ [cexEntry2] ∧ cexEntry2.id ≠ "zzz") :=
  ⟨by decide,
   (C7_edit_and_delete_frame "t2" "id1" EditField.status "saved" [cexEntry]).2.2.1
     cexEntry (by decide) (by decide),
   (C7_edit_and_delete_frame "t2" "zzz" EditField.status "saved" [cexEntry2]).2.2.2
     cexEntry2⟩

/-! ## getField (the two Supabase server variants in src/unnamed/part_000) -/

/-- C2: `getField` is pure and both server copies agree: on an object it
returns the value of the first listed property that is neither `undefined`
nor `null` (and `null` when there is none, or when the object itself is
falsy), and the two textual variants compute the same result on every
input. -/
theorem C2_getField_first_defined_and_variants_agree :
    (∀ (o : String → JVal) (names : List String),
        getFieldA (some o) names = getFieldSpec o names) ∧
    (∀ (obj : Option (String → JVal)) (names : List String),
        getFieldA obj names = getFieldB obj names) ∧
    (∀ names : List String, getFieldA none names = JVal.null) := by
  refine ⟨?_, ?_, ?_⟩
  · intro o names
    induction names with
    | nil => rfl
    | cons n rest ih =>
        by_cases h : o n ≠ JVal.undef ∧ o n ≠ JVal.null
        · have hb : looseEqNull (o n) = false := by
            rcases h with ⟨h1, h2⟩
            cases hv : o n <;> simp_all [looseEqNull]
          simp [getFieldA, getFieldSpec, h, hb, List.find?]
        · have hb : looseEqNull (o n) = true := by
            by_cases h1 : o n = JVal.undef
            · simp [h1, looseEqNull]
            · have h2 : o n = JVal.null := by tauto
              simp [h2, looseEqNull]
          simp only [getFieldA, if_neg h]
          rw [ih]
          simp [getFieldSpec, List.find?, hb]
  · intro obj names
    induction names with
    | nil => cases obj <;> rfl
    | cons n rest ih =>
        cases obj with
        | none => simpa [getFieldA, getFieldB] using ih
        | some o =>
            by_cases h : o n ≠ JVal.undef ∧ o n ≠ JVal.null
            · have hb : looseEqNull (o n) = false := by
                rcases h with ⟨h1, h2⟩
                cases hv : o n <;> simp_all [looseEqNull]
              simp [getFieldA, getFieldB, h, hb]
            · have hb : looseEqNull (o n) = true := by
                by_cases h1 : o n = JVal.undef
                · simp [h1, looseEqNull]
                · have h2 : o n = JVal.null := by tauto
                  simp [h2, looseEqNull]
              simp only [getFieldA, getFieldB, if_neg h, hb]
              simpa using ih
  · intro names
    induction names with
    | nil => rfl
    | cons n rest ih => simpa [getFieldA] using ih

/-! ## Registration and login (server.js primary variant and its JSON-file
fallback, src/unnamed/part_000 Supabase variant, MongoDB variant) -/

/-- A user record as stored in the primary variant's `users.json` file. -/
structure JUser where
  id : Nat
  uniqueId : Nat
  firstName : String
  lastName : String
  birthday : String
  email : String
  occupation : String
  password : String
  street : String
  city : String
  state : String
  zip : String
  college : String
  certificate : String
  gradDate : String
  registeredAt : String
deriving DecidableEq, Repr

/-- The body of a `POST /api/register` request; `""` models a missing field. -/
structure RegisterReq where
  firstName : String
  lastName : String
  birthday : String
  email : String
  occupation : String
  street : String
  city : String
  state : String
  zip : String
  college : String
  certificate : String
  gradDate : String
  password : String
  confirmPassword : String
deriving DecidableEq, Repr

/-- An HTTP response: status code plus the JSON body's `message`. -/
structure JsonResp where
  status : Nat
  message : String
deriving DecidableEq, Repr

/-- `generateUniqueId(users)` from server.js: redraw
`Math.floor(10000000 + Math.random() * 90000000)` until no stored user has
that `uniqueId`.  The successive draws are supplied by the oracle `rand`;
the loop terminates exactly when some draw is free, which the hypothesis `h`
asserts, and the result is the first free draw. -/
def generateUniqueId (rand : Nat → Nat) (users : List JUser)
    (h : ∃ n, users.any (fun u => u.uniqueId = rand n) = false) : Nat :=
  rand (Nat.find h)

/-- The JSON-file fallback of `POST /api/register` in server.js (also the
whole handler of the JSON-only variant at the end of the file): field
validation, password confirmation, duplicate-email check, then append the new
user.  `hash` is the bcrypt hash of the password, `uid` the id drawn by
`generateUniqueId`, `now` the registration timestamp. -/
def registerJsonFile (hash : String) (uid : Nat) (now : String)
    (users : List JUser) (req : RegisterReq) : JsonResp × List JUser :=
  if req.firstName = "" ∨ req.lastName = "" ∨ req.birthday = "" ∨
     req.email = "" ∨ req.occupation = "" ∨ req.street = "" ∨ req.city = "" ∨
     req.state = "" ∨ req.zip = "" ∨ req.college = "" ∨ req.certificate = "" ∨
     req.gradDate = "" ∨ req.password = "" ∨ req.confirmPassword = "" then
    (⟨400, "All fields are required"⟩, users)
  else if req.password ≠ req.confirmPassword then
    (⟨400, "Passwords do not match"⟩, users)
  else if users.any (fun u => u.email = req.email) then
    (⟨400, "Email already registered"⟩, users)
  else
    (⟨200, "Registration successful!"⟩,
     users ++ [{ id := users.length + 1, uniqueId := uid,
                 firstName := req.firstName, lastName := req.lastName,
                 birthday := req.birthday, email := req.email,
                 occupation := req.occupation, password := hash,
                 street := req.street, city := req.city, state := req.state,
                 zip := req.zip, college := req.college,
                 certificate := req.certificate, gradDate := req.gradDate,
                 registeredAt := now }])

/-- A row of the Supabase `users` table as used by src/unnamed/part_000. -/
structure SbUser where
  id : Nat
  first_name : String
  last_name : String
  full_name : String
  birthday : String
  email : String
  occupation : String
  password_hash : String
  street : String
  city : String
  state : String
  zip : String
  college : String
  certificate : String
  grad_date : String
deriving DecidableEq, Repr

/-- `POST /api/register` of the first Supabase variant in
src/unnamed/part_000: require email and password, reject a stored duplicate
email with "Email already registered", otherwise insert the snake_case row
(the database success path; `newId` is the id the insert assigns). -/
def registerSupabase (hash : String) (newId : Nat) (db : List SbUser)
    (req : RegisterReq) : JsonResp × List SbUser :=
  if req.email = "" ∨ req.password = "" then
    (⟨400, "Email and password required"⟩, db)
  else if db.any (fun u => u.email = req.email) then
    (⟨400, "Email already registered"⟩, db)
  else
    (⟨200, "Registration successful"⟩,
     db ++ [{ id := newId, first_name := req.firstName,
              last_name := req.lastName,
              full_name := (req.firstName ++ " " ++ req.lastName).trim,
              birthday := req.birthday, email := req.email,
              occupation := req.occupation, password_hash := hash,
              street := req.street, city := req.city, state := req.state,
              zip := req.zip, college := req.college,
              certificate := req.certificate, grad_date := req.gradDate }])

/-- A user document of the MongoDB variants in server.js. -/
structure MUser where
  fullName : String
  email : String
  password : String
deriving DecidableEq, Repr

/-- A register / login request body of the MongoDB variants. -/
structure AuthReq where
  fullName : String
  email : String
  password : String
deriving DecidableEq, Repr

/-- An HTTP response of the MongoDB-variant handlers: status code plus the
JSON body's `success` flag and `message`.  `res.json(...)` without
`res.status(...)` responds with HTTP 200. -/
structure ApiResp where
  status : Nat
  success : Bool
  message : String
deriving DecidableEq, Repr

/-- `POST /register` of the MongoDB variant in server.js: a duplicate email
answers `res.json({ success: false, message: "Email already exists" })`
(HTTP 200); otherwise the hashed user is saved. -/
def registerMongo (hash : String) (db : List MUser) (req : AuthReq) :
    ApiResp × List MUser :=
  if db.any (fun u => u.email = req.email) then
    (⟨200, false, "Email already exists"⟩, db)
  else
    (⟨200, true, "Account created"⟩, db ++ [⟨req.fullName, req.email, hash⟩])

/-- `POST /login` of the MongoDB variant in server.js; `compare` is
`bcrypt.compare`.  All three outcomes are `res.json` responses, HTTP 200. -/
def loginMongo (compare : String → String → Bool) (db : List MUser)
    (req : AuthReq) : ApiResp :=
  match db.find? (fun u => u.email = req.email) with
  | none => ⟨200, false, "User not found"⟩
  | some u =>
      if compare req.password u.password then ⟨200, true, "Logged in"⟩
      else ⟨200, false, "Incorrect password"⟩

/-- `POST /uploadResume` of the Supabase variant in src/unnamed/part_000
(storage interaction abstracted to its success flag): every failure path is a
`res.json({ success: false, ... })` response, HTTP 200. -/
def uploadResumeSupabase (hasFile : Bool) (uploadError : Bool) : ApiResp :=
  if !hasFile then ⟨200, false, "No file uploaded"⟩
  else if uploadError then ⟨200, false, "Error uploading resume"⟩
  else ⟨200, true, "Resume uploaded successfully"⟩

/-- C3 (amended): a register request whose email is already stored never
changes the user store, in any variant; and when the request passes the
handler's earlier validation (all fields present, passwords matching — resp.
email and password present in the Supabase variant), the response is exactly
400 "Email already registered" with the store unchanged. -/
theorem C3_register_duplicate_email :
    (∀ (hash : String) (uid : Nat) (now : String) (users : List JUser)
        (req : RegisterReq), (∃ u ∈ users, u.email = req.email) →
          (registerJsonFile hash uid now users req).2 = users) ∧
    (∀ (hash : String) (newId : Nat) (db : List SbUser) (req : RegisterReq),
        (∃ u ∈ db, u.email = req.email) →
          (registerSupabase hash newId db req).2 = db) ∧
    (∀ (hash : String) (uid : Nat) (now : String) (users : List JUser)
        (req : RegisterReq),
        req.firstName ≠ "" → req.lastName ≠ "" → req.birthday ≠ "" →
        req.email ≠ "" → req.occupation ≠ "" → req.street ≠ "" →
        req.city ≠ "" → req.state ≠ "" → req.zip ≠ "" → req.college ≠ "" →
        req.certificate ≠ "" → req.gradDate ≠ "" → req.password ≠ "" →
        req.confirmPassword ≠ "" → req.password = req.confirmPassword →
        (∃ u ∈ users, u.email = req.email) →
          registerJsonFile hash uid now users req
            = (⟨400, "Email already registered"⟩, users)) ∧
    (∀ (hash : String) (newId : Nat) (db : List SbUser) (req : RegisterReq),
        req.email ≠ "" → req.password ≠ "" →
        (∃ u ∈ db, u.email = req.email) →
          registerSupabase hash newId db req
            = (⟨400, "Email already registered"⟩, db)) := by
  have hanyJ : ∀ (users : List JUser) (req : RegisterReq),
      (∃ u ∈ users, u.email = req.email) →
        users.any (fun u => u.email = req.email) = true := by
    rintro users req ⟨u, hu, he⟩
    exact List.any_eq_true.mpr ⟨u, hu, by simp [he]⟩
  have hanyS : ∀ (db : List SbUser) (req : RegisterReq),
      (∃ u ∈ db, u.email = req.email) →
        db.any (fun u => u.email = req.email) = true := by
    rintro db req ⟨u, hu, he⟩
    exact List.any_eq_true.mpr ⟨u, hu, by simp [he]⟩
  refine ⟨?_, ?_, ?_, ?_⟩
  · intro hash uid now users req hdup
    unfold registerJsonFile
    split_ifs with h1 h2 h3
    · rfl
    · rfl
    · rfl
    · exact absurd (hanyJ users req hdup) h3
  · intro hash newId db req hdup
    unfold registerSupabase
    split_ifs with h1 h2
    · rfl
    · rfl
    · exact absurd (hanyS db req hdup) h2
  · intro hash uid now users req h1 h2 h3 h4 h5 h6 h7 h8 h9 h10 h11 h12 h13
      h14 hpw hdup
    simp [registerJsonFile, h1, h2, h3, h4, h5, h6, h7, h8, h9, h10, h11,
      h12, h13, h14, hpw, hanyJ users req hdup]
  · intro hash newId db req h1 h2 hdup
    simp [registerSupabase, h1, h2, hanyS db req hdup]

def cexStoredUser : JUser :=
  { id := 1, uniqueId := 10000001, firstName := "Ann", lastName := "Lee",
    birthday := "2000-01-01", email := "ann@x.com", occupation := "dev",
    password := "h0", street := "s", city := "c", state := "st", zip := "z",
    college := "GSU", certificate := "BS", gradDate := "2024-05-01",
    registeredAt := "t0" }

def cexSbUser : SbUser :=
  { id := 1, first_name := "Ann", last_name := "Lee", full_name := "Ann Lee",
    birthday := "2000-01-01", email := "ann@x.com", occupation := "dev",
    password_hash := "h0", street := "s", city := "c", state := "st",
    zip := "z", college := "GSU", certificate := "BS",
    grad_date := "2024-05-01" }

/-- A register request whose email duplicates the stored user but whose
`firstName` field is missing. -/
def cexDupReq : RegisterReq :=
  { firstName := "", lastName := "Lee", birthday := "2000-01-01",
    email := "ann@x.com", occupation := "dev", street := "s", city := "c",
    state := "st", zip := "z", college := "GSU", certificate := "BS",
    gradDate := "2024-05-01", password := "pw", confirmPassword := "pw" }

/-- The same duplicate-email request with every field present. -/
def cexDupReqFull : RegisterReq :=
  { cexDupReq with firstName := "Bob" }

/-- C3 counterexample: a register request whose email equals a stored user's
email but whose `firstName` is missing is rejected by the field validation,
so its error message is "All fields are required", not the claimed
"Email already registered" (the store is still unchanged). -/
theorem C3_counterexample :
    cexStoredUser.email = cexDupReq.email ∧
    (registerJsonFile "h2" 10000002 "t2" [cexStoredUser] cexDupReq).1
      = ⟨400, "All fields are required"⟩ ∧
    (registerJsonFile "h2" 10000002 "t2" [cexStoredUser] cexDupReq).1.message
      ≠ "Email already registered" ∧
    (registerJsonFile "h2" 10000002 "t2" [cexStoredUser] cexDupReq).2
      = [cexStoredUser] := by decide

/-- Witness for C3's theorem at a concrete duplicate-email request. -/
theorem C3_register_duplicate_email_witness :
    (registerJsonFile "h2" 10000002 "t2" [cexStoredUser] cexDupReqFull).2
      = [cexStoredUser] ∧
    (registerSupabase "h2" 7 [cexSbUser] cexDupReqFull).2 = [cexSbUser] ∧
    registerJsonFile "h2" 10000002 "t2" [cexStoredUser] cexDupReqFull
      = (⟨400, "Email already registered"⟩, [cexStoredUser]) ∧
    registerSupabase "h2" 7 [cexSbUser] cexDupReqFull
      = (⟨400, "Email already registered"⟩, [cexSbUser]) :=
  ⟨C3_register_duplicate_email.1 "h2" 10000002 "t2" [cexStoredUser]
      cexDupReqFull ⟨cexStoredUser, by decide, by decide⟩,
   C3_register_duplicate_email.2.1 "h2" 7 [cexSbUser] cexDupReqFull
      ⟨cexSbUser, by decide, by decide⟩,
   C3_register_duplicate_email.2.2.1 "h2" 10000002 "t2" [cexStoredUser]
      cexDupReqFull (by decide) (by decide) (by decide) (by decide)
      (by decide) (by decide) (by decide) (by decide) (by decide) (by decide)
      (by decide) (by decide) (by decide) (by decide) (by decide)
      ⟨cexStoredUser, by decide, by decide⟩,
   C3_register_duplicate_email.2.2.2 "h2" 7 [cexSbUser] cexDupReqFull
      (by decide) (by decide) ⟨cexSbUser, by decide, by decide⟩⟩

/-- C4: whenever some eight-digit id is not taken and the random oracle draws
every eight-digit value (`Math.random` is uniform on [0,1)), the id-drawing
loop of `generateUniqueId` terminates, and its result is an eight-digit id no
stored user holds. -/
theorem C4_generateUniqueId_in_range_and_free
    (rand : Nat → Nat) (users : List JUser)
    (hrange : ∀ n, 10000000 ≤ rand n ∧ rand n ≤ 99999999)
    (hfair : ∀ i, 10000000 ≤ i → i ≤ 99999999 → ∃ n, rand n = i)
    (hfree : ∃ i, 10000000 ≤ i ∧ i ≤ 99999999 ∧ ∀ u ∈ users, u.uniqueId ≠ i) :
    ∃ h : ∃ n, users.any (fun u => u.uniqueId = rand n) = false,
      10000000 ≤ generateUniqueId rand users h ∧
      generateUniqueId rand users h ≤ 99999999 ∧
      ∀ u ∈ users, u.uniqueId ≠ generateUniqueId rand users h := by
  obtain ⟨i, h1, h2, hfr⟩ := hfree
  obtain ⟨n, hn⟩ := hfair i h1 h2
  have hterm : ∃ n, users.any (fun u => u.uniqueId = rand n) = false := by
    refine ⟨n, ?_⟩
    rw [hn]
    simp only [List.any_eq_false, decide_eq_true_eq]
    exact fun u hu => by simpa using hfr u hu
  refine ⟨hterm, (hrange _).1, (hrange _).2, ?_⟩
  have hspec := Nat.find_spec hterm
  simp only [List.any_eq_false, decide_eq_true_eq] at hspec
  exact fun u hu => by simpa [generateUniqueId] using hspec u hu

/-- The oracle drawing 10000000, 10000001, …, 99999999, 10000000, … -/
def witRand : Nat → Nat := fun n => 10000000 + n % 90000000

/-- Witness for C4 at a concrete oracle and the empty user list. -/
theorem C4_generateUniqueId_witness :
    ∃ h : ∃ n, ([] : List JUser).any (fun u => u.uniqueId = witRand n) = false,
      10000000 ≤ generateUniqueId witRand [] h ∧
      generateUniqueId witRand [] h ≤ 99999999 ∧
      ∀ u ∈ ([] : List JUser), u.uniqueId ≠ generateUniqueId witRand [] h :=
  C4_generateUniqueId_in_range_and_free witRand []
    (fun n => by unfold witRand; omega)
    (fun i hi1 hi2 => ⟨i - 10000000, by unfold witRand; omega⟩)
    ⟨10000000, by omega, by omega, by simp⟩

/-- C6 (amended): every rejection carries a JSON body with a nonempty error
message, and the primary variant's register handler uses the non-2xx code
400; but error status codes are not uniform across variants — the MongoDB
variant's register/login and the Supabase variant's resume upload answer
rejections with HTTP 200 and `success: false`. -/
theorem C6_error_responses :
    (∀ (hash : String) (uid : Nat) (now : String) (users : List JUser)
        (req : RegisterReq),
        (registerJsonFile hash uid now users req).1.status = 200 ∨
        ((registerJsonFile hash uid now users req).1.status = 400 ∧
         (registerJsonFile hash uid now users req).1.message ≠ "")) ∧
    (∀ (hash : String) (db : List MUser) (req : AuthReq),
        (registerMongo hash db req).1.success = false →
          (registerMongo hash db req).1.status = 200 ∧
          (registerMongo hash db req).1.message ≠ "") ∧
    (∀ (compare : String → String → Bool) (db : List MUser) (req : AuthReq),
        (loginMongo compare db req).success = false →
          (loginMongo compare db req).status = 200 ∧
          (loginMongo compare db req).message ≠ "") ∧
    (∀ (hasFile uploadError : Bool),
        (uploadResumeSupabase hasFile uploadError).success = false →
          (uploadResumeSupabase hasFile uploadError).status = 200 ∧
          (uploadResumeSupabase hasFile uploadError).message ≠ "") := by
  refine ⟨?_, ?_, ?_, ?_⟩
  · intro hash uid now users req
    unfold registerJsonFile
    split_ifs <;> simp
  · intro hash db req
    unfold registerMongo
    split_ifs <;> simp
  · intro compare db req
    unfold loginMongo
    cases hf : db.find? (fun u => u.email = req.email) with
    | none => simp
    | some u =>
        by_cases hc : compare req.password u.password
        · simp [hc]
        · simp [hc]
  · intro hasFile uploadError
    unfold uploadResumeSupabase
    split_ifs <;> simp

/-- C6 counterexample: the MongoDB variant rejects a duplicate-email
registration with `res.json({ success: false, message: "Email already
exists" })`, i.e. HTTP status 200 — a 2xx code, not a non-2xx error code. -/
theorem C6_counterexample :
    (registerMongo "h" [⟨"Ann Lee", "ann@x.com", "h0"⟩]
        ⟨"Bob", "ann@x.com", "pw"⟩).1
      = ⟨200, false, "Email already exists"⟩ ∧
    200 ≤ (registerMongo "h" [⟨"Ann Lee", "ann@x.com", "h0"⟩]
        ⟨"Bob", "ann@x.com", "pw"⟩).1.status ∧
    (registerMongo "h" [⟨"Ann Lee", "ann@x.com", "h0"⟩]
        ⟨"Bob", "ann@x.com", "pw"⟩).1.status < 300 := by decide

/-- Witness for C6's theorem at concrete rejected requests. -/
theorem C6_error_responses_witness :
    ((registerJsonFile "h" 1 "t" [] cexDupReq).1.status = 200 ∨
     ((registerJsonFile "h" 1 "t" [] cexDupReq).1.status = 400 ∧
      (registerJsonFile "h" 1 "t" [] cexDupReq).1.message ≠ "")) ∧
    ((registerMongo "h" [⟨"Ann Lee", "ann@x.com", "h0"⟩]
        ⟨"Bob", "ann@x.com", "pw"⟩).1.status = 200 ∧
     (registerMongo "h" [⟨"Ann Lee", "ann@x.com", "h0"⟩]
        ⟨"Bob", "ann@x.com", "pw"⟩).1.message ≠ "") ∧
    ((loginMongo (fun _ _ => false) [] ⟨"", "bob@x.com", "pw"⟩).status = 200 ∧
     (loginMongo (fun _ _ => false) [] ⟨"", "bob@x.com", "pw"⟩).message ≠ "") ∧
    ((uploadResumeSupabase false false).status = 200 ∧
     (uploadResumeSupabase false false).message ≠ "") :=
  ⟨C6_error_responses.1 "h" 1 "t" [] cexDupReq,
   C6_error_responses.2.1 "h" [⟨"Ann Lee", "ann@x.com", "h0"⟩]
     ⟨"Bob", "ann@x.com", "pw"⟩ (by decide),
   C6_error_responses.2.2.1 (fun _ _ => false) [] ⟨"", "bob@x.com", "pw"⟩
     (by decide),
   C6_error_responses.2.2.2 false false (by decide)⟩

/-! ## Response shapes: no password leaves the public interface (server.js
`mapDbUser` and the JSON-file register / login responses) -/

/-- A JSON object field value: a primitive, or one level of nested object
(the response shapes here nest at most once: `address`, `education`). -/
inductive JField where
  | prim (v : JVal)
  | obj (fields : List (String × JVal))
deriving DecidableEq, Repr

/-- A JSON object as an association list, in insertion order. -/
abbrev JObject := List (String × JField)

/-- All keys of an object, its nested objects' keys included. -/
def allKeys (o : JObject) : List String :=
  o.map Prod.fst ++
    (o.map (fun p =>
      match p.2 with
      | .prim _ => []
      | .obj fs => fs.map Prod.fst)).flatten

/-- A row of the primary variant's Supabase users table (`SELECT *`), as
consumed by `mapDbUser`.  Every column is a JS value. -/
structure DbRow where
  id : JVal
  unique_id : JVal
  firstname : JVal
  lastname : JVal
  fullname : JVal
  birthday : JVal
  email : JVal
  occupation : JVal
  password_hash : JVal
  street : JVal
  city : JVal
  state : JVal
  zip : JVal
  college : JVal
  certificate : JVal
  graddate : JVal
  profilepicpath : JVal
  created_at : JVal
deriving DecidableEq, Repr

/-- The object literal `mapDbUser` builds for a non-null row (server.js): it
selects twelve fields and never copies `password_hash`. -/
def mapDbUserRow (r : DbRow) : JObject :=
  [("id", .prim r.id),
   ("uniqueId", .prim (jvOr r.unique_id r.id)),
   ("firstName", .prim r.firstname),
   ("lastName", .prim r.lastname),
   ("birthday", .prim r.birthday),
   ("email", .prim r.email),
   ("occupation", .prim r.occupation),
   ("address", .obj [("street", r.street), ("city", r.city),
                     ("state", r.state), ("zip", r.zip)]),
   ("education", .obj [("college", r.college), ("certificate", r.certificate),
                       ("gradDate", r.graddate)]),
   ("registeredAt", .prim r.created_at),
   ("profilePicPath", .prim (jvOr r.profilepicpath JVal.null))]

/-- `mapDbUser(row)` from server.js: `null` for a missing row, otherwise the
mapped object. -/
def mapDbUser (row : Option DbRow) : Option JObject :=
  match row with
  | none => none
  | some r => some (mapDbUserRow r)

/-- The `newUser` object stored by the JSON-file register fallback
(server.js), `password` holding the bcrypt hash. -/
def newUserObj (hash now : String) (uid usersLen : Nat) (req : RegisterReq) :
    JObject :=
  [("id", .prim (.num (usersLen + 1))),
   ("uniqueId", .prim (.num uid)),
   ("firstName", .prim (.str req.firstName)),
   ("lastName", .prim (.str req.lastName)),
   ("birthday", .prim (.str req.birthday)),
   ("email", .prim (.str req.email)),
   ("occupation", .prim (.str req.occupation)),
   ("password", .prim (.str hash)),
   ("address", .obj [("street", .str req.street), ("city", .str req.city),
                     ("state", .str req.state), ("zip", .str req.zip)]),
   ("education", .obj [("college", .str req.college),
                       ("certificate", .str req.certificate),
                       ("gradDate", .str req.gradDate)]),
   ("registeredAt", .prim (.str now))]

/-- The JS object spread with one overriding key, `{ ...o, k: v }`. -/
def objSet (o : JObject) (k : String) (v : JField) : JObject :=
  if o.any (fun p => p.1 = k) then
    o.map (fun p => if p.1 = k then (k, v) else p)
  else o ++ [(k, v)]

/-- The register fallback's response user, `{ ...newUser, password: undefined }`. -/
def registerRespUser (hash now : String) (uid usersLen : Nat)
    (req : RegisterReq) : JObject :=
  objSet (newUserObj hash now uid usersLen req) "password" (.prim .undef)

/-- `JSON.stringify` semantics on one of these objects: keys whose value is
`undefined` are dropped, at the top level and inside nested objects. -/
def serializeObj (o : JObject) : JObject :=
  (o.filter (fun p =>
    match p.2 with
    | .prim .undef => false
    | _ => true)).map (fun p =>
      match p.2 with
      | .obj fs => (p.1, JField.obj (fs.filter (fun q => q.2 ≠ .undef)))
      | f => (p.1, f))

/-- The user object the JSON-file login handler responds with (server.js):
ten explicitly enumerated non-secret fields of the stored user. -/
def loginRespUser (u : JUser) : JObject :=
  [("id", .prim (.num u.id)),
   ("uniqueId", .prim (.num u.uniqueId)),
   ("firstName", .prim (.str u.firstName)),
   ("lastName", .prim (.str u.lastName)),
   ("email", .prim (.str u.email)),
   ("occupation", .prim (.str u.occupation)),
   ("birthday", .prim (.str u.birthday)),
   ("address", .obj [("street", .str u.street), ("city", .str u.city),
                     ("state", .str u.state), ("zip", .str u.zip)]),
   ("education", .obj [("college", .str u.college),
                       ("certificate", .str u.certificate),
                       ("gradDate", .str u.gradDate)]),
   ("registeredAt", .prim (.str u.registeredAt))]

/-- C8: no stored password or hash reaches the public interface: `mapDbUser`
output never has a `password_hash` or `password` key (nested objects
included); the serialized JSON-file register response user has none (its
`password: undefined` entry is dropped by `JSON.stringify`); and the
JSON-file login response user has none. -/
theorem C8_no_password_in_responses :
    (∀ r : DbRow, "password_hash" ∉ allKeys (mapDbUserRow r) ∧
        "password" ∉ allKeys (mapDbUserRow r)) ∧
    (∀ (hash now : String) (uid usersLen : Nat) (req : RegisterReq),
        "password" ∉ allKeys (serializeObj (registerRespUser hash now uid usersLen req)) ∧
        "password_hash" ∉ allKeys (serializeObj (registerRespUser hash now uid usersLen req))) ∧
    (∀ u : JUser, "password" ∉ allKeys (loginRespUser u) ∧
        "password_hash" ∉ allKeys (loginRespUser u)) := by
  refine ⟨?_, ?_, ?_⟩
  · intro r
    constructor <;> simp [allKeys, mapDbUserRow]
  · intro hash now uid usersLen req
    constructor <;>
      simp [allKeys, registerRespUser, newUserObj, objSet, serializeObj,
        List.filter, List.any]
  · intro u
    constructor <;> simp [allKeys, loginRespUser]

/-! ## POST /api/format-resume (MongoDB variant, src/unnamed/part_000, and
the second Supabase variant in server.js)

JS string primitives are embedded as structural functions on character
lists so that concrete runs evaluate by `decide`. -/

/-- The whitespace class used for JS `trim` and `\s`. -/
def isJsSpace (c : Char) : Bool := c.isWhitespace

/-- JS `text.split("\n")`, on character lists. -/
def splitNlList : List Char → List (List Char)
  | [] => [[]]
  | c :: rest =>
      match splitNlList rest with
      | [] => [[]]
      | line :: more =>
          if c = '\n' then [] :: line :: more else (c :: line) :: more

/-- JS `text.split("\n")`. -/
def splitNl (s : String) : List String := (splitNlList s.toList).map String.mk

/-- JS `String.prototype.trim`. -/
def jsTrim (s : String) : String :=
  String.mk (((s.toList.dropWhile isJsSpace).reverse.dropWhile isJsSpace).reverse)

/-- JS `String.prototype.startsWith` on character lists. -/
def listStartsWith : List Char → List Char → Bool
  | [], _ => true
  | _ :: _, [] => false
  | p :: ps, c :: cs => p = c && listStartsWith ps cs

/-- JS `s.startsWith(p)`. -/
def jsStartsWith (s p : String) : Bool := listStartsWith p.toList s.toList

/-- JS `l.replace(/^[<bullets>]+\s*/, "")`: when the string begins with a
bullet character, drop the maximal bullet run and the following whitespace;
otherwise the regex does not match and the string is unchanged. -/
def stripBulletHead (bullets : List Char) (l : String) : String :=
  match l.toList with
  | [] => l
  | c :: _ =>
      if bullets.contains c then
        String.mk ((l.toList.dropWhile (fun d => bullets.contains d)).dropWhile
          isJsSpace)
      else l

/-- JS `lines.join("\n")`. -/
def joinNl : List String → String
  | [] => ""
  | [l] => l
  | l :: rest => l ++ "\n" ++ joinNl rest

/-- One line of the MongoDB variant's formatter (server.js line 766, bullet
characters `-` and `•`). -/
def formatLineMongo (l : String) : String :=
  if jsStartsWith l "-" || jsStartsWith l "•" then
    "- " ++ stripBulletHead ['-', '•'] l
  else l

/-- One line of the first Supabase variant's formatter
(src/unnamed/part_000, same bullet characters `-` and `•`). -/
def formatLineSupabase1 (l : String) : String :=
  if jsStartsWith l "-" || jsStartsWith l "•" then
    "- " ++ stripBulletHead ['-', '•'] l
  else l

/-- One line of the second Supabase variant's formatter (server.js line
1309): its source bytes spell the bullet as the three characters `â€¢`, so
the prefix test is against the string "â€¢" and the regex class contains the
characters `-`, `â`, `€`, `¢`. -/
def formatLineSupabase2 (l : String) : String :=
  if jsStartsWith l "-" || jsStartsWith l "â€¢" then
    "- " ++ stripBulletHead ['-', 'â', '€', '¢'] l
  else l

/-- The shared shape of the three `POST /api/format-resume` bodies: split
into lines, trim, drop empty lines, format each line, prepend the header. -/
def formatResumeWith (fmt : String → String) (text : String) : String :=
  let lines := ((splitNl text).map jsTrim).filter (fun l => l ≠ "")
  "Professional Summary:\n" ++ joinNl (lines.map fmt)

/-- The MongoDB variant's `formattedText`. -/
def formatResumeMongo (text : String) : String :=
  formatResumeWith formatLineMongo text

/-- The first Supabase variant's `formattedText` (src/unnamed/part_000). -/
def formatResumeSupabase1 (text : String) : String :=
  formatResumeWith formatLineSupabase1 text

/-- The second Supabase variant's `formattedText` (server.js, mojibake
bullet). -/
def formatResumeSupabase2 (text : String) : String :=
  formatResumeWith formatLineSupabase2 text

theorem map_congr_of_mem {α β : Type} {f g : α → β} :
    ∀ {l : List α}, (∀ a ∈ l, f a = g a) → l.map f = l.map g := by
  intro l
  induction l with
  | nil => intro _; rfl
  | cons a rest ih =>
      intro h
      simp only [List.map_cons]
      rw [h a (by simp), ih (fun x hx => h x (by simp [hx]))]

/-- C5 (amended): the MongoDB variant and the first Supabase variant compute
the same `formattedText` on every input; the second Supabase variant in
server.js tests for the bullet "â€¢" instead of "•", so it only agrees on
texts none of whose trimmed nonempty lines begins with `-`, `•` or `â`. -/
theorem C5_format_resume_variants (text : String) :
    (formatResumeMongo text = formatResumeSupabase1 text) ∧
    ((∀ l ∈ ((splitNl text).map jsTrim).filter (fun l => l ≠ ""),
        jsStartsWith l "-" = false ∧ jsStartsWith l "•" = false ∧
        jsStartsWith l "â" = false) →
      formatResumeSupabase2 text = formatResumeMongo text) := by
  constructor
  · rfl
  · intro hl
    have hmap :
        (((splitNl text).map jsTrim).filter (fun l => l ≠ "")).map formatLineSupabase2
          = (((splitNl text).map jsTrim).filter (fun l => l ≠ "")).map formatLineMongo := by
      apply map_congr_of_mem
      intro l hmem
      obtain ⟨h1, h2, h3⟩ := hl l hmem
      have h4 : jsStartsWith l "â€¢" = false := by
        unfold jsStartsWith at h3 ⊢
        cases hc : l.toList with
        | nil => simp [listStartsWith]
        | cons c cs =>
            rw [hc] at h3
            simp only [listStartsWith, Bool.and_eq_false_iff] at h3 ⊢
            left
            have : ('â' == c) = false := by
              simpa [listStartsWith] using h3
            simpa using this
      simp [formatLineSupabase2, formatLineMongo, h1, h2, h4]
    show "Professional Summary:\n" ++
        joinNl ((((splitNl text).map jsTrim).filter (fun l => l ≠ "")).map
          formatLineSupabase2)
      = "Professional Summary:\n" ++
        joinNl ((((splitNl text).map jsTrim).filter (fun l => l ≠ "")).map
          formatLineMongo)
    rw [hmap]

/-- Witness for C5 at a concrete bullet-free text. -/
theorem C5_format_resume_variants_witness :
    (formatResumeMongo "Skills\nJava\n" = formatResumeSupabase1 "Skills\nJava\n") ∧
    formatResumeSupabase2 "Skills\nJava\n" = formatResumeMongo "Skills\nJava\n" :=
  ⟨(C5_format_resume_variants "Skills\nJava\n").1,
   (C5_format_resume_variants "Skills\nJava\n").2 (by decide)⟩

/-- C5 counterexample: on the single line "• Skill" the MongoDB variant (and
the first Supabase variant) rewrite the bullet, while the second Supabase
variant leaves the line unchanged, so the three handlers do not produce an
identical `formattedText`. -/
theorem C5_counterexample :
    formatResumeMongo "• Skill" = "Professional Summary:\n- Skill" ∧
    formatResumeSupabase1 "• Skill" = "Professional Summary:\n- Skill" ∧
    formatResumeSupabase2 "• Skill" = "Professional Summary:\n• Skill" ∧
    formatResumeSupabase2 "• Skill" ≠ formatResumeMongo "• Skill" := by decide

/-! ## GET /api/colleges (server.js primary variant) -/

/-- JS `String.prototype.toLowerCase` (ASCII approximation, the stored
college names are ASCII). -/
def toLowerStr (s : String) : String := String.mk (s.toList.map Char.toLower)

/-- Contiguous-sublist test on character lists, JS
`hay.includes(needle)`. -/
def listSubstr (needle : List Char) : List Char → Bool
  | [] => needle.isEmpty
  | c :: rest => listStartsWith needle (c :: rest) || listSubstr needle rest

/-- JS `s.includes(sub)`. -/
def jsIncludes (s sub : String) : Bool := listSubstr sub.toList s.toList

/-- `GET /api/colleges` of the primary server.js variant: absent or short
(`< 3` characters, the empty string being falsy) search gives `[]`;
otherwise the stored names containing the search case-insensitively,
`slice(0, 10)`. -/
def collegesHandler (colleges : List String) (search : Option String) :
    List String :=
  match search with
  | none => []
  | some s =>
      if s.length < 3 then []
      else
        (colleges.filter (fun c => jsIncludes (toLowerStr c) (toLowerStr s))).take 10

/-- C9: the college search returns `[]` for an absent or sub-3-character
query, and otherwise exactly the first at-most-ten stored names containing
the query case-insensitively; in particular the result has at most ten
entries, each a stored name matching the query. -/
theorem C9_colleges_search (colleges : List String) (search : Option String) :
    (search = none → collegesHandler colleges search = []) ∧
    (∀ s, search = some s → s.length < 3 → collegesHandler colleges search = []) ∧
    (∀ s, search = some s → 3 ≤ s.length →
      collegesHandler colleges search
        = (colleges.filter (fun c => jsIncludes (toLowerStr c) (toLowerStr s))).take 10 ∧
      (collegesHandler colleges search).length ≤ 10 ∧
      ∀ c ∈ collegesHandler colleges search,
        c ∈ colleges ∧ jsIncludes (toLowerStr c) (toLowerStr s) = true) := by
  refine ⟨?_, ?_, ?_⟩
  · rintro rfl; rfl
  · rintro s rfl hs
    simp [collegesHandler, hs]
  · rintro s rfl hs
    have hns : ¬ s.length < 3 := by omega
    refine ⟨by simp [collegesHandler, hns], ?_, ?_⟩
    · simp only [collegesHandler, if_neg hns]
      exact le_trans (List.length_take_le _ _) (by simp)
    · intro c hc
      simp only [collegesHandler, if_neg hns] at hc
      have hc' := List.mem_of_mem_take hc
      exact ⟨(List.mem_filter.mp hc').1, (List.mem_filter.mp hc').2⟩

def cexColleges : List String :=
  ["Harvard University", "Stanford University",
   "Massachusetts Institute of Technology", "Princeton University",
   "Yale University", "Columbia University",
   "University of California, Berkeley", "University of Michigan",
   "New York University", "Georgia Institute of Technology",
   "University of Florida", "Boston University",
   "University of Illinois Urbana-Champaign", "Purdue University",
   "University of Washington"]

/-- Witness for C9 on the seeded colleges.json list. -/
theorem C9_colleges_search_witness :
    collegesHandler cexColleges none = [] ∧
    collegesHandler cexColleges (some "un") = [] ∧
    collegesHandler cexColleges (some "university")
      = (cexColleges.filter
          (fun c => jsIncludes (toLowerStr c) (toLowerStr "university"))).take 10 ∧
    (collegesHandler cexColleges (some "university")).length ≤ 10 :=
  ⟨(C9_colleges_search cexColleges none).1 rfl,
   (C9_colleges_search cexColleges (some "un")).2.1 "un" rfl (by decide),
   ((C9_colleges_search cexColleges (some "university")).2.2 "university" rfl
      (by decide)).1,
   ((C9_colleges_search cexColleges (some "university")).2.2 "university" rfl
      (by decide)).2.1⟩

/-! ## fetchLiveJobs (server.js primary variant) -/

/-- A job object of the upstream Remotive payload; `""` models a missing
string field and `[]` a missing tags array. -/
structure RemJob where
  title : String := ""
  company_name : String := ""
  candidate_required_location : String := ""
  location : String := ""
  job_type : String := ""
  salary : String := ""
  salary_range : String := ""
  company_logo_url : String := ""
  url : String := ""
  description : String := ""
  tags : List String := []
deriving DecidableEq, Repr

/-- A job record returned by `fetchLiveJobs`. -/
structure LiveJob where
  title : String
  company : String
  location : String
  type : String
  salary : String
  logo : String
  link : String
  description : String
  keywords : List String
deriving DecidableEq, Repr

/-- The global replace `description.replace(/<[^>]*>/g, " ")`: a `<` with a
later `>` consumes through the first `>` and becomes one space; a `<` never
closed stays literal.  `acc` buffers (reversed) the characters scanned since
an unclosed `<`. -/
def stripHtmlAux : Option (List Char) → List Char → List Char
  | none, [] => []
  | some acc, [] => '<' :: acc.reverse
  | none, c :: rest =>
      if c = '<' then stripHtmlAux (some []) rest
      else c :: stripHtmlAux none rest
  | some acc, c :: rest =>
      if c = '>' then ' ' :: stripHtmlAux none rest
      else stripHtmlAux (some (c :: acc)) rest

/-- The global replace `.replace(/\s+/g, " ")`: each maximal whitespace run
becomes a single space.  The flag records whether the previous character was
whitespace. -/
def collapseWsAux : Bool → List Char → List Char
  | _, [] => []
  | prevWs, c :: rest =>
      if isJsSpace c then
        if prevWs then collapseWsAux true rest
        else ' ' :: collapseWsAux true rest
      else c :: collapseWsAux false rest

/-- `(job.description || "").replace(/<[^>]*>/g, " ").replace(/\s+/g, " ").trim()`
as a character list. -/
def cleanDescriptionOf (d : String) : List Char :=
  (((collapseWsAux false (stripHtmlAux none d.toList)).dropWhile
      isJsSpace).reverse.dropWhile isJsSpace).reverse

/-- The three-character suffix the source appends to truncated descriptions:
its bytes spell `â€¦` (a mojibake-encoded ellipsis), not the single
character `…`. -/
def truncationSuffix : String := "â€¦"

/-- The per-job mapping inside `fetchLiveJobs` (server.js). -/
def mapRemJob (job : RemJob) : LiveJob :=
  let tags := job.tags.map toLowerStr
  let cleanDescription := cleanDescriptionOf job.description
  { title := job.title
    company := job.company_name
    location := jsOr job.candidate_required_location (jsOr job.location "Remote")
    type := jsOr job.job_type "Remote"
    salary := jsOr job.salary (jsOr job.salary_range "")
    logo := jsOr job.company_logo_url ""
    link := job.url
    description := String.mk (cleanDescription.take 260) ++
      (if 260 < cleanDescription.length then truncationSuffix else "")
    keywords := tags }

/-- `fetchLiveJobs` applied to a successfully fetched payload:
`jobs.slice(0, 20).map(...)`. -/
def fetchLiveJobs (payload : List RemJob) : List LiveJob :=
  (payload.take 20).map mapRemJob

/-- C10 (amended): `fetchLiveJobs` returns at most 20 records; every record's
keywords are the lowercased upstream tags; the description is the
HTML-stripped, whitespace-collapsed, trimmed text truncated to 260
characters, with the source's three-character suffix "â€¦" appended exactly
when the cleaned text exceeds 260 characters — so its length is at most 263
(not 261: the suffix is a mojibake-encoded ellipsis of three characters). -/
theorem C10_fetchLiveJobs_limits (payload : List RemJob) :
    (fetchLiveJobs payload).length ≤ 20 ∧
    ∀ job ∈ payload.take 20,
      mapRemJob job ∈ fetchLiveJobs payload ∧
      (mapRemJob job).keywords = job.tags.map toLowerStr ∧
      (mapRemJob job).description.length ≤ 263 ∧
      ((cleanDescriptionOf job.description).length ≤ 260 →
        (mapRemJob job).description
          = String.mk (cleanDescriptionOf job.description)) ∧
      (260 < (cleanDescriptionOf job.description).length →
        (mapRemJob job).description
          = String.mk ((cleanDescriptionOf job.description).take 260)
              ++ truncationSuffix) := by
  constructor
  · simp only [fetchLiveJobs, List.length_map]
    exact List.length_take_le 20 payload
  · intro job hjob
    refine ⟨List.mem_map_of_mem mapRemJob hjob, rfl, ?_, ?_, ?_⟩
    · by_cases h : 260 < (cleanDescriptionOf job.description).length
      · simp only [mapRemJob, if_pos h]
        rw [String.length_append]
        have h1 : (String.mk ((cleanDescriptionOf job.description).take 260)).length
            ≤ 260 := List.length_take_le 260 _
        have h2 : truncationSuffix.length = 3 := by decide
        omega
      · have hle : (cleanDescriptionOf job.description).length ≤ 260 := by omega
        have htk : (cleanDescriptionOf job.description).take 260
            = cleanDescriptionOf job.description := List.take_of_length_le hle
        simp only [mapRemJob, if_neg h, htk]
        rw [String.length_append]
        have h1 : (String.mk (cleanDescriptionOf job.description)).length ≤ 260 := hle
        have h2 : ("" : String).length = 0 := rfl
        omega
    · intro hle
      have h : ¬ 260 < (cleanDescriptionOf job.description).length := by omega
      have htk : (cleanDescriptionOf job.description).take 260
          = cleanDescriptionOf job.description := List.take_of_length_le hle
      simp [mapRemJob, if_neg h, htk]
    · intro h
      simp [mapRemJob, if_pos h]

/-- An upstream job whose cleaned description has 261 characters. -/
def cexRemJob : RemJob :=
  { title := "Dev", company_name := "Acme", url := "https://x",
    description := String.mk (List.replicate 261 'a'),
    tags := ["Java", "SQL"] }

set_option maxRecDepth 40000 in
/-- Witness for C10 at a concrete over-long description. -/
theorem C10_fetchLiveJobs_limits_witness :
    (fetchLiveJobs [cexRemJob]).length ≤ 20 ∧
    (mapRemJob cexRemJob).keywords = cexRemJob.tags.map toLowerStr ∧
    (mapRemJob cexRemJob).description.length ≤ 263 ∧
    (mapRemJob cexRemJob).description
      = String.mk ((cleanDescriptionOf cexRemJob.description).take 260)
          ++ truncationSuffix :=
  ⟨(C10_fetchLiveJobs_limits [cexRemJob]).1,
   ((C10_fetchLiveJobs_limits [cexRemJob]).2 cexRemJob (by decide)).2.1,
   ((C10_fetchLiveJobs_limits [cexRemJob]).2 cexRemJob (by decide)).2.2.1,
   ((C10_fetchLiveJobs_limits [cexRemJob]).2 cexRemJob (by decide)).2.2.2.2
     (by decide)⟩

set_option maxRecDepth 40000 in
/-- C10 counterexample: for a 261-character upstream description the
returned description has 263 characters — the 260-character prefix plus the
three-character suffix "â€¦" — exceeding the claimed bound of 261. -/
theorem C10_counterexample :
    (fetchLiveJobs [cexRemJob]).map (fun j => j.description.length) = [263] ∧
    261 < 263 := by decide

end JSB
